import Mathlib

set_option maxRecDepth 8000

set_option allowUnsafeReducibility true
attribute [semireducible] Rat.mul Rat.add Rat.sub Rat.inv Rat.div

namespace Inkspire

/-! Shallow embedding of the inkspire DSL engine.

Modelling conventions, stated once:
* JavaScript numbers (IEEE-754 doubles) are modelled as exact rationals.
  No theorem in this file depends on floating-point rounding.
  Division by zero is modelled as NaN (JavaScript yields an infinity);
  no verified statement evaluates a division or modulo by zero.
* The JavaScript values `undefined`, `NaN`, booleans and numbers that can
  appear on the evaluator stacks are the constructors of `JSVal`.
* A variable store (a plain JS object mapping identifier strings to
  numbers) is a function `String → Option JSVal`; `none` models an
  absent property, whose read yields `undefined`.
* Fatal diagnostics (`context.throwError`, which prints and terminates
  the process) and thrown `Error`s are both modelled as `Except.error`
  carrying the source message.
-/

/-- JavaScript runtime values that flow through the compiled evaluators. -/
inductive JSVal where
  | undef : JSVal
  | nan   : JSVal
  | bool  : Bool → JSVal
  | num   : ℚ → JSVal
deriving DecidableEq, Repr

/-- JavaScript truthiness: `undefined`, `NaN`, `false` and `0` are falsy. -/
def truthy : JSVal → Bool
  | .undef  => false
  | .nan    => false
  | .bool b => b
  | .num q  => decide (q ≠ 0)

/-- JS `ToNumber` coercion; `none` is NaN. -/
def toNum : JSVal → Option ℚ
  | .undef  => none
  | .nan    => none
  | .bool b => some (if b then 1 else 0)
  | .num q  => some q

/-- Truncation toward zero, as JavaScript `%` uses. -/
def ratTrunc (q : ℚ) : ℤ := if 0 ≤ q then ⌊q⌋ else ⌈q⌉

def jsAdd (a b : JSVal) : JSVal :=
  match toNum a, toNum b with
  | some x, some y => .num (x + y)
  | _, _ => .nan

def jsSub (a b : JSVal) : JSVal :=
  match toNum a, toNum b with
  | some x, some y => .num (x - y)
  | _, _ => .nan

def jsMul (a b : JSVal) : JSVal :=
  match toNum a, toNum b with
  | some x, some y => .num (x * y)
  | _, _ => .nan

/-- JS division; division by zero is modelled as NaN (see header note). -/
def jsDiv (a b : JSVal) : JSVal :=
  match toNum a, toNum b with
  | some x, some y => if y = 0 then .nan else .num (x / y)
  | _, _ => .nan

/-- JS remainder: sign of the dividend, truncated division. -/
def jsMod (a b : JSVal) : JSVal :=
  match toNum a, toNum b with
  | some x, some y => if y = 0 then .nan else .num (x - y * (ratTrunc (x / y) : ℚ))
  | _, _ => .nan

/-- JS `a && b`: returns `b` when `a` is truthy, else `a`. -/
def jsAnd (a b : JSVal) : JSVal := if truthy a then b else a

/-- JS `a || b`: returns `a` when `a` is truthy, else `b`. -/
def jsOr (a b : JSVal) : JSVal := if truthy a then a else b

/-- JS strict equality `===` on the values arising here (NaN equals nothing). -/
def jsStrictEq : JSVal → JSVal → Bool
  | .undef, .undef => true
  | .bool a, .bool b => a == b
  | .num a, .num b => decide (a = b)
  | _, _ => false

/-- JS `<=` (numeric coercion; false whenever either side is NaN). -/
def jsLe (a b : JSVal) : Bool :=
  match toNum a, toNum b with
  | some x, some y => decide (x ≤ y)
  | _, _ => false

/-- JS `>=`. -/
def jsGe (a b : JSVal) : Bool :=
  match toNum a, toNum b with
  | some x, some y => decide (y ≤ x)
  | _, _ => false

/-- JS `<`. -/
def jsLt (a b : JSVal) : Bool :=
  match toNum a, toNum b with
  | some x, some y => decide (x < y)
  | _, _ => false

/-- JS `>`. -/
def jsGt (a b : JSVal) : Bool :=
  match toNum a, toNum b with
  | some x, some y => decide (y < x)
  | _, _ => false

/-- The shared mutable variable registry `variables`. -/
def VarStore : Type := String → Option JSVal

def emptyStore : VarStore := fun _ => none

def updateStore (σ : VarStore) (k : String) (v : JSVal) : VarStore :=
  fun x => if x = k then some v else σ x

def storeOf (l : List (String × ℚ)) : VarStore :=
  fun x => (l.find? (fun p => p.1 = x)).map (fun p => JSVal.num p.2)

/-! ## Identifier resolver (src/src/identifiers.js)

`parseIdentifier` splits on `:` with JS limit 3 (`split(':', 3)` keeps at
most three segments and drops the rest); `parts.length > 2` — that is, the
raw string holds at least two colons — is a malformed-identifier error.
-/

/-- JS `String.prototype.split(':')` on a character list. -/
def splitColon : List Char → List (List Char)
  | [] => [[]]
  | c :: rest =>
    if c = ':' then [] :: splitColon rest
    else
      match splitColon rest with
      | p :: ps => (c :: p) :: ps
      | [] => [[c]]

/-- Source `asIdentifier`: the template `namespace:name`. -/
def asIdentifier (ns name : String) : String := ns ++ ":" ++ name

/-- Source `parseIdentifier(identifierString, defaultNamespace)`.  The source
truncates the split to three parts and errors when more than two remain,
which is exactly: error as soon as two or more colons occur. -/
def parseIdentifier (raw ns : String) : Except String String :=
  match splitColon raw.toList with
  | [_] => .ok (asIdentifier ns raw)
  | [a, b] => .ok (asIdentifier (String.mk a) (String.mk b))
  | _ => .error ("Malformed identifier " ++ raw ++ ".")

/-- Source `getIdentifierNamespace`: errors unless exactly one colon. -/
def getNamespaceE (id : String) : Except String String :=
  match splitColon id.toList with
  | [a, _] => .ok (String.mk a)
  | _ => .error ("Malformed identifier: " ++ id)

/-- Source `getIdentifierName`. -/
def getNameE (id : String) : Except String String :=
  match splitColon id.toList with
  | [_, b] => .ok (String.mk b)
  | _ => .error ("Malformed identifier: " ++ id)

lemma splitColon_ne_nil (s : List Char) : splitColon s ≠ [] := by
  induction s with
  | nil => simp [splitColon]
  | cons c rest ih =>
    simp only [splitColon]
    split
    · simp
    · cases h : splitColon rest with
      | nil => simp
      | cons p ps => simp

lemma splitColon_length (s : List Char) :
    (splitColon s).length = s.count ':' + 1 := by
  induction s with
  | nil => simp [splitColon]
  | cons c rest ih =>
    simp only [splitColon]
    by_cases hc : c = ':'
    · subst hc
      simp [List.count_cons, ih]
    · rw [if_neg hc]
      cases h : splitColon rest with
      | nil => exact absurd h (splitColon_ne_nil rest)
      | cons p ps =>
        rw [h] at ih
        simp only [List.length_cons] at ih ⊢
        rw [List.count_cons]
        simp [hc, ih]

/-- Joining the split back with `:` restores the original characters. -/
def joinColon : List (List Char) → List Char
  | [] => []
  | [a] => a
  | a :: rest => a ++ ':' :: joinColon rest

lemma joinColon_splitColon (s : List Char) : joinColon (splitColon s) = s := by
  induction s with
  | nil => simp [splitColon, joinColon]
  | cons c rest ih =>
    simp only [splitColon]
    by_cases hc : c = ':'
    · subst hc
      cases h : splitColon rest with
      | nil => exact absurd h (splitColon_ne_nil rest)
      | cons p ps =>
        rw [h] at ih
        simp [joinColon, ih]
    · rw [if_neg hc]
      cases h : splitColon rest with
      | nil => exact absurd h (splitColon_ne_nil rest)
      | cons p ps =>
        rw [h] at ih
        cases ps with
        | nil => simp [joinColon] at ih ⊢; exact ih
        | cons q qs => simp [joinColon] at ih ⊢; exact ih

lemma string_mk_append (a b : List Char) :
    String.mk a ++ String.mk b = String.mk (a ++ b) := rfl

lemma string_mk_toList (s : String) : String.mk s.toList = s := rfl

/-- C9: identifier parsing: a raw string with no colon yields
`ns:raw`; exactly one colon returns the input verbatim; two or more
colons raise the malformed-identifier error. -/
theorem c9_identifier_law (raw ns : String) :
    (raw.toList.count ':' = 0 →
      parseIdentifier raw ns = .ok (ns ++ ":" ++ raw)) ∧
    (raw.toList.count ':' = 1 →
      parseIdentifier raw ns = .ok raw) ∧
    (2 ≤ raw.toList.count ':' →
      parseIdentifier raw ns = .error ("Malformed identifier " ++ raw ++ ".")) := by
  have hlen := splitColon_length raw.toList
  have hjoin := joinColon_splitColon raw.toList
  refine ⟨?_, ?_, ?_⟩
  · intro h0
    rw [h0] at hlen
    unfold parseIdentifier
    cases hs : splitColon raw.toList with
    | nil => exact absurd hs (splitColon_ne_nil raw.toList)
    | cons p ps =>
      rw [hs] at hlen
      cases ps with
      | nil => rfl
      | cons q qs => simp at hlen
  · intro h1
    rw [h1] at hlen
    unfold parseIdentifier
    cases hs : splitColon raw.toList with
    | nil => exact absurd hs (splitColon_ne_nil raw.toList)
    | cons p ps =>
      cases ps with
      | nil => rw [hs] at hlen; simp at hlen
      | cons q qs =>
        cases qs with
        | nil =>
          rw [hs] at hjoin
          simp only [joinColon] at hjoin
          simp only []
          congr 1
          show asIdentifier (String.mk p) (String.mk q) = raw
          unfold asIdentifier
          rw [show (":" : String) = String.mk [':'] from rfl,
            string_mk_append, string_mk_append]
          rw [← string_mk_toList raw]
          congr 1
          simpa using hjoin
        | cons r rs => rw [hs] at hlen; simp at hlen
  · intro h2
    unfold parseIdentifier
    cases hs : splitColon raw.toList with
    | nil => exact absurd hs (splitColon_ne_nil raw.toList)
    | cons p ps =>
      rw [hs] at hlen
      cases ps with
      | nil =>
        simp only [List.length_cons, List.length_nil] at hlen
        omega
      | cons q qs =>
        cases qs with
        | nil =>
          simp only [List.length_cons, List.length_nil] at hlen
          omega
        | cons r rs => rfl

/-- C9 witness: the three concrete instances from the specification. -/
theorem c9_identifier_law_witness :
    parseIdentifier "x" "ns" = .ok "ns:x" ∧
    parseIdentifier "a:x" "ns" = .ok "a:x" ∧
    parseIdentifier "a:b:x" "ns" = .error "Malformed identifier a:b:x." := by
  refine ⟨?_, ?_, ?_⟩
  · exact (c9_identifier_law "x" "ns").1 (by decide)
  · exact (c9_identifier_law "a:x" "ns").2.1 (by decide)
  · exact (c9_identifier_law "a:b:x" "ns").2.2 (by decide)

/-! ## Action expression compiler (src/src/variables.js, `Action`)

`actionTokenRegex = /\d+(\.\d+)?|[a-zA-Z_][a-zA-Z0-9_:]*|[+\-*\/%()]/g`:
a global match scans left to right, trying the alternatives in order at
each position and skipping a character when none applies. -/

def isWS (c : Char) : Bool := c = ' ' ∨ c = '\t' ∨ c = '\n' ∨ c = '\r'

/-- JS `String.prototype.trim` (on the whitespace used here). -/
def jsTrim (s : List Char) : List Char :=
  ((s.dropWhile isWS).reverse.dropWhile isWS).reverse

def digitsVal (ds : List Char) : ℕ :=
  ds.foldl (fun a c => a * 10 + (c.toNat - 48)) 0

/-- Value of an integer part plus a fractional digit string. -/
def decimalVal (ip fp : List Char) : ℚ :=
  (digitsVal ip : ℚ) + (digitsVal fp : ℚ) / ((10 : ℚ) ^ fp.length)

/-- Raw tokens produced by `actionTokenRegex`. -/
inductive RawATok where
  | numT   : ℚ → RawATok
  | identT : String → RawATok
  | symT   : Char → RawATok
deriving DecidableEq, Repr

def isIdentStart (c : Char) : Bool := c.isAlpha ∨ c = '_'

def isIdentCont (c : Char) : Bool := c.isAlphanum ∨ c = '_' ∨ c = ':'

def isActionSym (c : Char) : Bool :=
  c = '+' ∨ c = '-' ∨ c = '*' ∨ c = '/' ∨ c = '%' ∨ c = '(' ∨ c = ')'

def tokenizeAction : ℕ → List Char → List RawATok
  | 0, _ => []
  | _, [] => []
  | fuel + 1, c :: rest =>
    if c.isDigit then
      let ds := (c :: rest).takeWhile Char.isDigit
      let r1 := (c :: rest).dropWhile Char.isDigit
      match r1 with
      | '.' :: r2 =>
        let fs := r2.takeWhile Char.isDigit
        if fs = [] then .numT (digitsVal ds : ℚ) :: tokenizeAction fuel r1
        else .numT (decimalVal ds fs) :: tokenizeAction fuel (r2.dropWhile Char.isDigit)
      | _ => .numT (digitsVal ds : ℚ) :: tokenizeAction fuel r1
    else if isIdentStart c then
      let cs := rest.takeWhile isIdentCont
      .identT (String.mk (c :: cs)) :: tokenizeAction fuel (rest.dropWhile isIdentCont)
    else if isActionSym c then
      .symT c :: tokenizeAction fuel rest
    else
      tokenizeAction fuel rest

/-- Postfix (RPN) instructions: the `outputQueue` contents.  A stray `(`
left on the operator stack is flushed to the queue by the source and is
skipped by the evaluator, hence `lparen`. -/
inductive ATok where
  | num    : ℚ → ATok
  | varRef : String → ATok
  | opC    : Char → ATok
  | lparen : ATok
deriving DecidableEq, Repr

def isOpChar (c : Char) : Bool :=
  c = '+' ∨ c = '-' ∨ c = '*' ∨ c = '/' ∨ c = '%'

def stackTok (c : Char) : ATok := if c = '(' then .lparen else .opC c

/-- The shunting-yard loop of `Action.createEvaluator`: an operator pops
every stacked operator only when the incoming token is `+` or `-`; `*`,
`/`, `%` are pushed without popping. -/
def shuntA (ns expr : String) :
    List RawATok → List ATok → List Char → Except String (List ATok)
  | [], out, stack => .ok (out ++ stack.map stackTok)
  | .numT q :: ts, out, stack => shuntA ns expr ts (out ++ [.num q]) stack
  | .identT s :: ts, out, stack => do
    let id ← parseIdentifier s ns
    shuntA ns expr ts (out ++ [.varRef id]) stack
  | .symT c :: ts, out, stack =>
    if isOpChar c then
      if c = '+' ∨ c = '-' then
        let popped := stack.takeWhile (fun x => x ≠ '(')
        shuntA ns expr ts (out ++ popped.map ATok.opC)
          (c :: stack.dropWhile (fun x => x ≠ '('))
      else
        shuntA ns expr ts out (c :: stack)
    else if c = '(' then
      shuntA ns expr ts out ('(' :: stack)
    else if c = ')' then
      let popped := stack.takeWhile (fun x => x ≠ '(')
      match stack.dropWhile (fun x => x ≠ '(') with
      | '(' :: rest2 => shuntA ns expr ts (out ++ popped.map ATok.opC) rest2
      | _ => .error ("Mismatched parentheses: " ++ expr)
    else
      shuntA ns expr ts out stack

def applyAOp (c : Char) (a b : JSVal) : JSVal :=
  if c = '+' then jsAdd a b
  else if c = '-' then jsSub a b
  else if c = '*' then jsMul a b
  else if c = '/' then jsDiv a b
  else if c = '%' then jsMod a b
  else (.undef : JSVal)

/-- The compiled evaluator: walk the RPN queue with an operand stack
(list head is the top; `stack[0]` of the source is the last element).
Popping an empty stack yields `undefined`, as in JS. -/
def evalRPN (σ : VarStore) : List ATok → List JSVal → Except String JSVal
  | [], stack => .ok (stack.getLast?.getD .undef)
  | .num q :: ts, stack => evalRPN σ ts (.num q :: stack)
  | .varRef id :: ts, stack =>
    match σ id with
    | none => .error ("Variable " ++ id ++ " used before assignment.")
    | some v => evalRPN σ ts (v :: stack)
  | .opC c :: ts, stack =>
    let b := stack.headD .undef
    let a := (stack.drop 1).headD .undef
    evalRPN σ ts (applyAOp c a b :: stack.drop 2)
  | .lparen :: ts, stack => evalRPN σ ts stack

/-- Source `Action.createEvaluator`: tokenize (a fully skipped string is the
`Invalid expression` diagnostic, as a null `match` result) then shunt. -/
def compileExpr (expr ns : String) : Except String (List ATok) :=
  let tokens := tokenizeAction (expr.toList.length + 1) expr.toList
  if tokens = [] then .error ("Invalid expression: " ++ expr)
  else shuntA ns expr tokens [] []

def evalActionExpr (expr ns : String) (σ : VarStore) : Except String JSVal := do
  let rpn ← compileExpr expr ns
  evalRPN σ rpn []

/-- Assignment operators captured by `actionRegex` (`[+\-*\/]?=`). -/
inductive AOp where
  | assign | addA | subA | mulA | divA
deriving DecidableEq, Repr

/-- Source `actionRegex = /(.*?)([+\-*\/]?=)(.*)/`: the lazy left side stops at
the first position where the operator group can match, the operator
group preferring its two-character form. -/
def splitActionStr : List Char → List Char → Option (List Char × AOp × List Char)
  | _, [] => none
  | pre, c :: cs =>
    if c = '=' then some (pre.reverse, .assign, cs)
    else if (c = '+' ∨ c = '-' ∨ c = '*' ∨ c = '/') ∧ cs.head? = some '=' then
      some (pre.reverse,
        (if c = '+' then .addA else if c = '-' then .subA
         else if c = '*' then .mulA else .divA), cs.tail)
    else splitActionStr (c :: pre) cs

/-- A compiled `Action`: target identifier, operator, RPN expression. -/
structure JAction where
  varName : String
  aop : AOp
  rpn : List ATok
deriving DecidableEq, Repr

/-- The `Action` constructor. -/
def compileAction (action ns : String) : Except String JAction :=
  match splitActionStr [] action.toList with
  | none => .error ("Malformed action: " ++ action)
  | some (lv, op, ex) => do
    let vn ← parseIdentifier (String.mk (jsTrim lv)) ns
    let rpn ← compileExpr (String.mk (jsTrim ex)) ns
    .ok ⟨vn, op, rpn⟩

/-- Source `Action.evaluate`: run the compiled evaluator, then apply the
assignment.  The compound forms read `variables[variableName]` without
any defined-ness check: an absent entry reads as `undefined` and the JS
arithmetic produces NaN, which is then written. -/
def runAction (a : JAction) (σ : VarStore) : Except String VarStore := do
  let v ← evalRPN σ a.rpn []
  match a.aop with
  | .assign => .ok (updateStore σ a.varName v)
  | .addA => .ok (updateStore σ a.varName (jsAdd ((σ a.varName).getD .undef) v))
  | .subA => .ok (updateStore σ a.varName (jsSub ((σ a.varName).getD .undef) v))
  | .mulA => .ok (updateStore σ a.varName (jsMul ((σ a.varName).getD .undef) v))
  | .divA => .ok (updateStore σ a.varName (jsDiv ((σ a.varName).getD .undef) v))

def compileAndRunAction (action ns : String) (σ : VarStore) :
    Except String VarStore := do
  let a ← compileAction action ns
  runAction a σ

/-! ## Reference semantics for C2 -/

mutual

/-- Modelled from the spec: standard infix evaluation over the same token
stream, in which `*`, `/`, `%` bind tighter than `+`, `-`, all operators
are left-associative and parentheses are respected.  This is the
comparison semantics named by the claim, not code of the repository. -/
def specAtom : ℕ → List RawATok → VarStore → String → Option (ℚ × List RawATok)
  | 0, _, _, _ => none
  | _ + 1, [], _, _ => none
  | fuel + 1, t :: ts, σ, ns =>
    match t with
    | .numT q => some (q, ts)
    | .identT s =>
      match parseIdentifier s ns with
      | .ok id =>
        match σ id with
        | some (.num q) => some (q, ts)
        | _ => none
      | .error _ => none
    | .symT '(' =>
      match specAddChain fuel ts σ ns with
      | some (v, .symT ')' :: r) => some (v, r)
      | _ => none
    | .symT _ => none

/-- Left-associative chain of `*`, `/`, `%` applications. -/
def specMulChain (fuel : ℕ) (toks : List RawATok) (σ : VarStore) (ns : String) :
    Option (ℚ × List RawATok) :=
  match fuel with
  | 0 => none
  | fuel + 1 =>
    match specAtom fuel toks σ ns with
    | some (v, rest) => specMulLoop fuel v rest σ ns
    | none => none

def specMulLoop : ℕ → ℚ → List RawATok → VarStore → String → Option (ℚ × List RawATok)
  | 0, _, _, _, _ => none
  | fuel + 1, v, toks, σ, ns =>
    match toks with
    | .symT '*' :: rest =>
      match specAtom fuel rest σ ns with
      | some (b, r2) => specMulLoop fuel (v * b) r2 σ ns
      | none => none
    | .symT '/' :: rest =>
      match specAtom fuel rest σ ns with
      | some (b, r2) => if b = 0 then none else specMulLoop fuel (v / b) r2 σ ns
      | none => none
    | .symT '%' :: rest =>
      match specAtom fuel rest σ ns with
      | some (b, r2) =>
        if b = 0 then none
        else specMulLoop fuel (v - b * (ratTrunc (v / b) : ℚ)) r2 σ ns
      | none => none
    | _ => some (v, toks)

/-- Left-associative chain of `+`, `-` applications over `specMulChain`. -/
def specAddChain (fuel : ℕ) (toks : List RawATok) (σ : VarStore) (ns : String) :
    Option (ℚ × List RawATok) :=
  match fuel with
  | 0 => none
  | fuel + 1 =>
    match specMulChain fuel toks σ ns with
    | some (v, rest) => specAddLoop fuel v rest σ ns
    | none => none

def specAddLoop : ℕ → ℚ → List RawATok → VarStore → String → Option (ℚ × List RawATok)
  | 0, _, _, _, _ => none
  | fuel + 1, v, toks, σ, ns =>
    match toks with
    | .symT '+' :: rest =>
      match specMulChain fuel rest σ ns with
      | some (b, r2) => specAddLoop fuel (v + b) r2 σ ns
      | none => none
    | .symT '-' :: rest =>
      match specMulChain fuel rest σ ns with
      | some (b, r2) => specAddLoop fuel (v - b) r2 σ ns
      | none => none
    | _ => some (v, toks)

end

/-- Modelled from the spec: full standard evaluation of an expression
string (the whole token stream must be consumed). -/
def specInfixEval (expr ns : String) (σ : VarStore) : Option ℚ :=
  let tokens := tokenizeAction (expr.toList.length + 1) expr.toList
  match specAddChain (4 * tokens.length + 8) tokens σ ns with
  | some (v, []) => some v
  | _ => none

instance {ε α : Type} [DecidableEq ε] [DecidableEq α] : DecidableEq (Except ε α) :=
  fun x y =>
    match x, y with
    | .ok a, .ok b =>
      if h : a = b then isTrue (by rw [h])
      else isFalse (by intro hc; injection hc; contradiction)
    | .error a, .error b =>
      if h : a = b then isTrue (by rw [h])
      else isFalse (by intro hc; injection hc; contradiction)
    | .ok _, .error _ => isFalse (by intro hc; cases hc)
    | .error _, .ok _ => isFalse (by intro hc; cases hc)

/-! ## Postfix Conditional (the unnamed duplicate of variables.js,
`Conditional.createEvaluator`)

Pipeline: strip all whitespace; rewrite the two-sided range sugar
`(\w+)=(\d+)\.\.(\d+)` into `(v>=lo&&v<=hi)`; tokenize with
`/\w+|>=|<=|==|=|&&|\|\||[()]|[-\d]+/g`; shunting-yard with precedence
`comparison 3 > && 2 > || 1`, all left-associative; evaluate the postfix
queue with no short-circuiting and coerce the final value to boolean. -/

def isWordChar (c : Char) : Bool := c.isAlphanum ∨ c = '_'

/-- A single attempt of `numberRangeRegex` at the current position
(maximal-munch; the regex admits no backtracking here because `=` and
`.` are not word or digit characters). -/
def tryRangeAt (s : List Char) : Option (List Char × List Char) :=
  let w := s.takeWhile isWordChar
  if w = [] then none
  else
    match s.dropWhile isWordChar with
    | '=' :: r2 =>
      let d1 := r2.takeWhile Char.isDigit
      if d1 = [] then none
      else
        match r2.dropWhile Char.isDigit with
        | '.' :: '.' :: r4 =>
          let d2 := r4.takeWhile Char.isDigit
          if d2 = [] then none
          else
            some ('(' :: w ++ '>' :: '=' :: d1 ++ '&' :: '&' :: w ++
              '<' :: '=' :: d2 ++ [')'], r4.dropWhile Char.isDigit)
        | _ => none
    | _ => none

/-- Global replace of `numberRangeRegex`: leftmost match, replacement
not rescanned, single-character advance on failure. -/
def rangeRepl : ℕ → List Char → List Char
  | 0, s => s
  | _, [] => []
  | fuel + 1, c :: rest =>
    match tryRangeAt (c :: rest) with
    | some (rep, after) => rep ++ rangeRepl fuel after
    | none => c :: rangeRepl fuel rest

/-- Global match of `conditionalTokenRegex`, alternatives in source
order, skipping a character when none applies.  Note a lone `&` or `|`
matches no alternative and is silently dropped. -/
def condTokenize : ℕ → List Char → List String
  | 0, _ => []
  | _, [] => []
  | fuel + 1, c :: rest =>
    if isWordChar c then
      String.mk (c :: rest.takeWhile isWordChar) ::
        condTokenize fuel (rest.dropWhile isWordChar)
    else if c = '>' ∧ rest.head? = some '=' then
      ">=" :: condTokenize fuel rest.tail
    else if c = '<' ∧ rest.head? = some '=' then
      "<=" :: condTokenize fuel rest.tail
    else if c = '=' ∧ rest.head? = some '=' then
      "==" :: condTokenize fuel rest.tail
    else if c = '=' then
      "=" :: condTokenize fuel rest
    else if c = '&' ∧ rest.head? = some '&' then
      "&&" :: condTokenize fuel rest.tail
    else if c = '|' ∧ rest.head? = some '|' then
      "||" :: condTokenize fuel rest.tail
    else if c = '(' then
      "(" :: condTokenize fuel rest
    else if c = ')' then
      ")" :: condTokenize fuel rest
    else if c = '-' then
      String.mk ((c :: rest).takeWhile (fun x => x = '-' ∨ x.isDigit)) ::
        condTokenize fuel (rest.dropWhile (fun x => x = '-' ∨ x.isDigit))
    else
      condTokenize fuel rest

/-- Full-string `numberRegex` test `^\d+(\.\d+)?$`. -/
def numberTest (s : List Char) : Bool :=
  let d := s.takeWhile Char.isDigit
  if d = [] then false
  else
    match s.dropWhile Char.isDigit with
    | [] => true
    | '.' :: f => f ≠ [] ∧ f.all Char.isDigit
    | _ => false

/-- Full-string `variableRegex` test `^[a-zA-Z_][a-zA-Z0-9_:]*$`. -/
def variableTest (s : List Char) : Bool :=
  match s with
  | [] => false
  | c :: rest => isIdentStart c ∧ rest.all isIdentCont

/-- Parse a token that passed `numberTest`. -/
def numberValue (s : List Char) : ℚ :=
  let d := s.takeWhile Char.isDigit
  match s.dropWhile Char.isDigit with
  | '.' :: f => decimalVal d f
  | _ => (digitsVal d : ℚ)

/-- Postfix Conditional instructions. -/
inductive CTok where
  | num    : ℚ → CTok
  | varRef : String → CTok
  | cop    : String → CTok
  | lparen : CTok
deriving DecidableEq, Repr

def condPrec (o : String) : ℕ :=
  if o = "&&" then 2 else if o = "||" then 1 else 3

def isCOp (o : String) : Bool :=
  o = "&&" ∨ o = "||" ∨ o = ">=" ∨ o = "<=" ∨ o = "==" ∨ o = "="

def stackTokC (o : String) : CTok := if o = "(" then .lparen else .cop o

/-- The part_001 conditional shunting yard (left-associative, the listed
precedences; `)` pops blindly with no mismatch diagnostic). -/
def shuntC (ns : String) :
    List String → List CTok → List String → Except String (List CTok)
  | [], out, stack => .ok (out ++ stack.map stackTokC)
  | tok :: ts, out, stack =>
    if numberTest tok.toList then
      shuntC ns ts (out ++ [.num (numberValue tok.toList)]) stack
    else if variableTest tok.toList then do
      let id ← parseIdentifier tok ns
      shuntC ns ts (out ++ [.varRef id]) stack
    else if isCOp tok then
      let popped := stack.takeWhile
        (fun x => isCOp x ∧ condPrec tok ≤ condPrec x)
      shuntC ns ts (out ++ popped.map CTok.cop)
        (tok :: stack.dropWhile (fun x => isCOp x ∧ condPrec tok ≤ condPrec x))
    else if tok = "(" then
      shuntC ns ts out ("(" :: stack)
    else if tok = ")" then
      let popped := stack.takeWhile (fun x => x ≠ "(")
      shuntC ns ts (out ++ popped.map CTok.cop)
        ((stack.dropWhile (fun x => x ≠ "(")).tail)
    else
      shuntC ns ts out stack

def applyCondOp (o : String) (a b : JSVal) : JSVal :=
  if o = "&&" then jsAnd a b
  else if o = "||" then jsOr a b
  else if o = ">=" then .bool (jsGe a b)
  else if o = "<=" then .bool (jsLe a b)
  else if o = "==" ∨ o = "=" then .bool (jsStrictEq a b)
  else (.undef : JSVal)

/-- The postfix evaluator closure: no short-circuiting; every variable
instruction looks the store up (raising when absent) even when a
previously computed subresult already decides the condition.  The final
`stack[0]` is coerced with `Boolean`. -/
def evalCondRPN (σ : VarStore) : List CTok → List JSVal → Except String Bool
  | [], stack => .ok (truthy (stack.getLast?.getD .undef))
  | .num q :: ts, stack => evalCondRPN σ ts (.num q :: stack)
  | .varRef id :: ts, stack =>
    match σ id with
    | none => .error ("Variable " ++ id ++ " used before assignment.")
    | some v => evalCondRPN σ ts (v :: stack)
  | .cop o :: ts, stack =>
    let b := stack.headD .undef
    let a := (stack.drop 1).headD .undef
    evalCondRPN σ ts (applyCondOp o a b :: stack.drop 2)
  | .lparen :: ts, stack => evalCondRPN σ ts stack

/-- Source `Conditional.createEvaluator` of the postfix implementation. -/
def condCompileP1 (cond ns : String) : Except String (List CTok) :=
  let stripped := cond.toList.filter (fun c => ¬ isWS c)
  let replaced := rangeRepl (stripped.length + 1) stripped
  let tokens := condTokenize (replaced.length + 1) replaced
  if tokens = [] then .error ("Malformed conditional: " ++ cond)
  else shuntC ns tokens [] []

/-- Compile and evaluate under the postfix implementation. -/
def condEvalP1 (cond ns : String) (σ : VarStore) : Except String Bool := do
  let rpn ← condCompileP1 cond ns
  evalCondRPN σ rpn []

/-! ## The live Conditional (src/src/variables.js, `Conditional`)

This is the Conditional the document model instantiates
(`require('./variables')`).  It cannot run:

* A class body is strict-mode code.  The constructor's tokenization
  block begins by assigning the undeclared identifier
  `conditionExpressionSubstring` (line 156), which in strict mode throws
  `ReferenceError: conditionExpressionSubstring is not defined` — after
  evaluating the pure right-hand side `conditionExpression.replaceAll(" ", "")`.
  Every construction therefore throws, for every input; the tokenizer,
  the range splicing, the parenthesis pairing and `polishify` that
  follow in the source are unreachable, and so are not modelled here.
* Independently, the bare-variable tokenizer case reads the undeclared
  identifier `namespace` (line 171), and `evaluate()` reads the
  constructor-local `let` bindings `tokens` and `regexs` (lines 310-311),
  which are out of scope in the method — each a `ReferenceError` of its
  own.

Consequently the source file's own test suite (`testConditionals`,
Tests 1-9, which assert concrete boolean results and an
undefined-variable error) fails at the first `new Conditional`. -/

/-- Source `Conditional` constructor: evaluate the space-stripping of
the input (pure), then throw the strict-mode `ReferenceError` for the
undeclared `conditionExpressionSubstring`.  The result type is `Unit`
because no instance is ever produced. -/
def condConstructV (cond : String) (_ns : String) : Except String Unit :=
  let _stripped := cond.toList.filter (fun c => c ≠ ' ')
  .error "ReferenceError: conditionExpressionSubstring is not defined"

/-- Source `Conditional.evaluate`: its first statement reads the
out-of-scope constructor local `tokens`, so every call throws — on any
instance state and any store (no instance can exist anyway, since
construction already throws). -/
def condEvaluateV : Except String JSVal :=
  .error "ReferenceError: tokens is not defined"

/-- Source `Option` constructor, condition field:
`(condition) && new Conditional(condition, ...)` — absent stays absent,
present always crashes the document load. -/
def buildOptCondition (condition : Option String) (ns : String) :
    Except String (Option String) :=
  match condition with
  | none => .ok none
  | some c => (condConstructV c ns).map (fun _ => some c)

/-! ## Text template engine (the document-model file, `Text`)

The constructor splits on `/(\${[^}]+}|\?\{[^}]+})/g` (captured markers
kept, empty pieces filtered), then maps each piece: a `${...}` marker
resolves its identifier and captures a live store read; a `?{...}`
marker is parsed by `/\?\{([^?]+)\?([^:]+)(?::([^}]+))?}/` — note the
branch separator actually implemented is a COLON, not the pipe the
format documentation describes — and then constructs a Conditional for
the condition group, which ALWAYS throws (see the Conditional section),
so no conditional fragment is ever compiled and the `condTok`-style
closure of the source is dead code; anything else is a literal.
`evaluate` concatenates the fragments, JS `join` rendering `undefined`
as the empty string. -/

inductive TTok where
  | lit    : String → TTok
  | varRef : String → TTok
deriving DecidableEq, Repr

inductive JText where
  | mk : List TTok → JText
deriving DecidableEq, Repr

/-- Pieces after the marker split. -/
inductive TPiece where
  | litP  : List Char → TPiece
  | markP : List Char → TPiece

/-- Match one of the two marker regexes at the head of the string. -/
def tryMarker (s : List Char) : Option (List Char × List Char) :=
  match s with
  | '$' :: '{' :: rest =>
    let content := rest.takeWhile (fun c => c ≠ '}')
    if content = [] then none
    else
      match rest.dropWhile (fun c => c ≠ '}') with
      | '}' :: after => some ('$' :: '{' :: content ++ ['}'], after)
      | _ => none
  | '?' :: '{' :: rest =>
    let content := rest.takeWhile (fun c => c ≠ '}')
    if content = [] then none
    else
      match rest.dropWhile (fun c => c ≠ '}') with
      | '}' :: after => some ('?' :: '{' :: content ++ ['}'], after)
      | _ => none
  | _ => none

/-- The split-with-captures pass (`filter(Boolean)` drops empties). -/
def splitMarkers : ℕ → List Char → List Char → List TPiece
  | 0, acc, rest =>
    if (acc.reverse ++ rest) = [] then [] else [.litP (acc.reverse ++ rest)]
  | _ + 1, acc, [] => if acc = [] then [] else [.litP acc.reverse]
  | fuel + 1, acc, c :: cs =>
    match tryMarker (c :: cs) with
    | some (tok, rest) =>
      (if acc = [] then [] else [TPiece.litP acc.reverse]) ++
        .markP tok :: splitMarkers fuel [] rest
    | none => splitMarkers fuel (c :: acc) cs

/-- The `conditionalMatch` regex
`/\?\{([^?]+)\?([^:]+)(?::([^}]+))?}/` applied to a whole marker token:
the condition group runs to the first `?`, textA to the first `:` (a
pipe is ordinary text inside it), textB — when the colon is present —
is the non-empty remainder.  `none` means the regex fails and the token
stays a literal. -/
def condMarkerParse (cs : List Char) : Option (String × String × Option String) :=
  match cs with
  | '?' :: '{' :: rest =>
    let content := rest.takeWhile (fun c => c ≠ '}')
    let condPart := content.takeWhile (fun c => c ≠ '?')
    if condPart = [] then none
    else
      match content.dropWhile (fun c => c ≠ '?') with
      | '?' :: afterQ =>
        let t1 := afterQ.takeWhile (fun c => c ≠ ':')
        if t1 = [] then none
        else
          match afterQ.dropWhile (fun c => c ≠ ':') with
          | [] => some (String.mk condPart, String.mk t1, none)
          | ':' :: t2chars =>
            if t2chars = [] then none
            else some (String.mk condPart, String.mk t1, some (String.mk t2chars))
          | _ => none
      | _ => none
  | _ => none

/-- Map one piece to a fragment, mirroring the source's regex order:
`variableMatch` first, then `conditionalMatch`, else a literal.  When
the conditional regex matches, the source immediately constructs
`new Conditional(conditionalMatch[1], ...)`, which always throws, so
the fragment value after the bind is unreachable. -/
def pieceToTok (p : TPiece) (ns : String) : Except String TTok :=
  match p with
  | .litP cs => .ok (.lit (String.mk cs))
  | .markP cs =>
    match cs with
    | '$' :: '{' :: rest => do
      let varName := rest.takeWhile (fun c => c ≠ '}')
      let id ← parseIdentifier (String.mk varName) ns
      .ok (.varRef id)
    | '?' :: '{' :: _ =>
      match condMarkerParse cs with
      | some (cond, _t1, _t2) =>
        (condConstructV cond ns).map (fun _ => TTok.lit (String.mk cs))
      | none => .ok (.lit (String.mk cs))
    | _ => .ok (.lit (String.mk cs))

def piecesToToks : List TPiece → String → Except String (List TTok)
  | [], _ => .ok []
  | p :: ps, ns => do
    let t ← pieceToTok p ns
    let r ← piecesToToks ps ns
    .ok (t :: r)

/-- The `Text` constructor. -/
def textCompile (s : List Char) (ns : String) : Except String JText :=
  (piecesToToks (splitMarkers (s.length + 1) [] s) ns).map .mk

/-- JS `Array.prototype.join("")` coercion of one fragment value:
`undefined` renders as the empty string, numbers via `String()`.
Non-integer rationals have no exercised rendering; they are shown as
`num/den` here and no verified statement relies on that case. -/
def jsValJoinStr : Option JSVal → String
  | none => ""
  | some .undef => ""
  | some .nan => "NaN"
  | some (.bool b) => if b then "true" else "false"
  | some (.num q) =>
    if q.den = 1 then toString q.num
    else toString q.num ++ "/" ++ toString q.den

def tokEval (t : TTok) (σ : VarStore) : String :=
  match t with
  | .lit s => s
  | .varRef id => jsValJoinStr (σ id)

/-- Source `Text.evaluate`: concatenate the current value of every
fragment (only literal and variable fragments can exist; see above). -/
def textEval (t : JText) (σ : VarStore) : Except String String :=
  match t with
  | .mk toks => .ok (String.join (toks.map (fun t => tokEval t σ)))

/-- Compile a Text from a string. -/
def textCompileStr (s ns : String) : Except String JText :=
  textCompile s.toList ns

/-- Compile and render once. -/
def textRun (s ns : String) (σ : VarStore) : Except String String := do
  let t ← textCompileStr s ns
  textEval t σ

/-! ## Traversal engine (`AdventureEngine.runAdventure` / `getChoice`)

The loop body is modelled as a step function over an explicit state.
Linked scenes carry their resolved option targets directly (the
`Linker` mutates `option.target` from identifier to Scene reference).
Reading input when none remains models the source awaiting forever and
is reported as the distinguished "awaiting input" error; a thrown
`TypeError` (reading a property of `undefined`) is reported likewise as
an error string. -/

structure AdvCtx where
  globalTop : Option JText
  globalBottom : Option JText

mutual
inductive GScene where
  | mk : String → String → JText → List JText → List JAction →
      List GOpt → AdvCtx → GScene
inductive GOpt where
  | mk : JText → GScene → Option String → Bool → List JAction → GOpt
end

def GScene.identifier : GScene → String
  | .mk id _ _ _ _ _ _ => id

def GScene.sceneName : GScene → String
  | .mk _ n _ _ _ _ _ => n

def GScene.title : GScene → JText
  | .mk _ _ t _ _ _ _ => t

def GScene.content : GScene → List JText
  | .mk _ _ _ c _ _ _ => c

def GScene.actions : GScene → List JAction
  | .mk _ _ _ _ a _ _ => a

def GScene.opts : GScene → List GOpt
  | .mk _ _ _ _ _ o _ => o

def GScene.ctx : GScene → AdvCtx
  | .mk _ _ _ _ _ _ x => x

def GOpt.label : GOpt → JText
  | .mk l _ _ _ _ => l

def GOpt.target : GOpt → GScene
  | .mk _ t _ _ _ => t

def GOpt.condition : GOpt → Option String
  | .mk _ _ c _ _ => c

def GOpt.alwaysVisible : GOpt → Bool
  | .mk _ _ _ v _ => v

def GOpt.actions : GOpt → List JAction
  | .mk _ _ _ _ a => a

/-- Modelled from the spec: the `FixedSizeStack` module required by the
engine is not among the source files.  Per the spec it is a
fixed-capacity, most-recent-discards-oldest stack; `pop` of an empty
stack yields nothing (the source then crashes dereferencing it). -/
structure FixedStack where
  cap : ℕ
  items : List GScene

/-- Modelled from the spec: push keeps the newest `cap` entries. -/
def FixedStack.push (st : FixedStack) (s : GScene) : FixedStack :=
  { st with items := (s :: st.items).take st.cap }

/-- Modelled from the spec: pop the most recent entry, if any. -/
def FixedStack.pop (st : FixedStack) : Option (GScene × FixedStack) :=
  match st.items with
  | [] => none
  | s :: r => some (s, { st with items := r })

def MAX_RETURN_HISTORY : ℕ := 16

structure EngState where
  cur : GScene
  hist : FixedStack
  store : VarStore
  inputs : List String
  outputs : List String

inductive StepOut where
  | next : EngState → StepOut
  | finished : String → StepOut
  | exited : StepOut
  | errS : String → StepOut

def runActs : List JAction → VarStore → Except String VarStore
  | [], σ => .ok σ
  | a :: r, σ => do runActs r (← runAction a σ)

/-- Render a Text (engine-side alias). -/
def textEvalT (t : JText) (σ : VarStore) : Except String String :=
  textEval t σ

/-- The option partition of the multi-option path, in list order.  A
gated option calls `option.condition.evaluate()`, which always throws
(the method reads out-of-scope `tokens`); such an option cannot even be
constructed in the source, since building it already throws — the case
is modelled for the hypothetical state the claim describes. -/
def partitionOpts : List GOpt → VarStore → Except String (List GOpt × List GOpt)
  | [], _ => .ok ([], [])
  | o :: r, σ => do
    let avail ←
      match o.condition with
      | none => pure true
      | some _ => do
        let v ← condEvaluateV
        pure (truthy v)
    let (av, un) ← partitionOpts r σ
    if avail then .ok (o :: av, un) else .ok (av, o :: un)

/-- JS `Number()` on a trimmed line, for the numeric cases the engine
meets: empty is 0, an optionally signed decimal literal is its value,
anything else is NaN (`none`). -/
def jsNumberParse (s : List Char) : Option ℚ :=
  match s with
  | [] => some 0
  | _ =>
    let (sgn, body) :=
      match s with
      | '-' :: r => ((-1 : ℚ), r)
      | '+' :: r => ((1 : ℚ), r)
      | _ => ((1 : ℚ), s)
    let d := body.takeWhile Char.isDigit
    if d = [] then none
    else
      match body.dropWhile Char.isDigit with
      | [] => some (sgn * (digitsVal d : ℚ))
      | '.' :: f =>
        if f ≠ [] ∧ f.all Char.isDigit then some (sgn * decimalVal d f)
        else none
      | _ => none

def lowerFirst (s : String) : String :=
  match s.toList with
  | [] => ""
  | c :: r => String.mk (c.toLower :: r)

/-- Source `AdventureEngine.getChoice(numOptions)`: numOptions is the TOTAL
option count of the scene (`options.length`), not the available count. -/
def getChoice : ℕ → ℕ → List String → List String →
    Option (ℚ × List String × List String)
  | 0, _, _, _ => none
  | fuel + 1, nOpts, inputs, outs =>
    let outs1 := outs ++ ["What do you do?"]
    match inputs with
    | [] => none
    | inp :: rest =>
      match jsNumberParse (jsTrim inp.toList) with
      | none =>
        getChoice fuel nOpts rest (outs1 ++
          ["Select one of the options by entering a number from 1 to " ++
            toString nOpts ++ "."])
      | some c =>
        if c < 1 ∨ (nOpts : ℚ) < c then
          getChoice fuel nOpts rest (outs1 ++
            ["Select one of the options by entering a number from 1 to " ++
              toString nOpts ++ "."])
        else some (c, rest, outs1)

/-- The non-control part of one turn of `runAdventure`: run entry
actions, render, then the single-option or numbered-choice path.  No
path pushes the current scene onto the history. -/
def normalBody (st : EngState) : Except String StepOut := do
  let σ1 ← runActs st.cur.actions st.store
  let titleS ← textEvalT st.cur.title σ1
  let topS ←
    match st.cur.ctx.globalTop with
    | some t => (textEvalT t σ1).map (fun s => [s])
    | none => pure []
  let contents ← st.cur.content.mapM (fun t => textEvalT t σ1)
  let botS ←
    match st.cur.ctx.globalBottom with
    | some t => (textEvalT t σ1).map (fun s => [s])
    | none => pure []
  let outs := st.outputs ++ List.replicate 11 "" ++ [titleS] ++ topS ++
    contents.filter (fun s => s ≠ "") ++ botS
  match st.cur.opts with
  | [o] => do
    let label ← textEvalT o.label σ1
    let outs2 := outs ++
      (if label ≠ "" then ["You " ++ lowerFirst label] else []) ++
      ["Press enter to continue..."]
    match st.inputs with
    | [] => .error "awaiting input"
    | _ :: rest => do
      let σ2 ← runActs o.actions σ1
      .ok (.next ⟨o.target, st.hist, σ2, rest, outs2⟩)
  | opts => do
    let (av, _un) ← partitionOpts opts σ1
    let avLabels ← av.mapM (fun o => textEvalT o.label σ1)
    let visUn := (_un.filter (fun o => o.alwaysVisible))
    let unLabels ← visUn.mapM (fun o => textEvalT o.label σ1)
    let numbered := avLabels.enum.map
      (fun p => toString (p.1 + 1) ++ ": " ++ p.2)
    let xlines := unLabels.map (fun l => "X: " ++ l)
    let outs2 := outs ++ [""] ++ ["You could..."] ++ numbered ++ xlines ++ [""]
    match getChoice (st.inputs.length + 1) opts.length st.inputs outs2 with
    | none => .error "awaiting input"
    | some (c, restInputs, outs3) =>
      let idx? : Option ℕ :=
        if c.den = 1 ∧ 1 ≤ c.num then some (c.num.toNat - 1) else none
      match idx?.bind (fun i => av[i]?) with
      | none => .error "TypeError: chosen option is undefined"
      | some o => do
        let σ2 ← runActs o.actions σ1
        .ok (.next ⟨o.target, st.hist, σ2, restInputs, outs3⟩)

/-- One turn of `runAdventure`: control-namespace dispatch first (an
unrecognized name in the control namespace falls through to normal
rendering), otherwise the normal body.  `back` pops the history and
re-enters the popped scene; nothing is ever pushed. -/
def engineStep (st : EngState) : StepOut :=
  match getNamespaceE st.cur.identifier with
  | .error e => .errS e
  | .ok ns =>
    if ns = "inkspire" ∧ st.cur.sceneName = "switch" then .errS "Not implemented"
    else if ns = "inkspire" ∧ st.cur.sceneName = "fail" then .finished "You failed"
    else if ns = "inkspire" ∧ st.cur.sceneName = "pass" then .finished "You win"
    else if ns = "inkspire" ∧ st.cur.sceneName = "exit" then .exited
    else if ns = "inkspire" ∧ st.cur.sceneName = "back" then
      match st.hist.pop with
      | none => .errS "TypeError: popped scene is undefined"
      | some (s, h) => .next { st with cur := s, hist := h }
    else
      match normalBody st with
      | .ok r => r
      | .error e => .errS e

def stepCur : StepOut → Option GScene
  | .next st => some st.cur
  | _ => none

def stepHist : StepOut → Option (List GScene)
  | .next st => some st.hist.items
  | _ => none

def stepOutputs : StepOut → Option (List String)
  | .next st => some st.outputs
  | _ => none

/-! Concrete linked scenes exercising the engine paths. -/

def advCtxNone : AdvCtx := ⟨none, none⟩

def exSceneTarget : GScene :=
  .mk "test:t" "t" (.mk [.lit "T"]) [.mk [.lit "tb"]] [] [] advCtxNone

def exSceneSingle : GScene :=
  .mk "test:s" "s" (.mk [.lit "S"]) [.mk [.lit "body"]] []
    [.mk (.mk [.lit "Go"]) exSceneTarget none false []] advCtxNone

def exSceneBack : GScene :=
  .mk "inkspire:back" "back" (.mk [.lit "B"]) [] [] [] advCtxNone

def exOptPlain : GOpt := .mk (.mk [.lit "One"]) exSceneTarget none false []

def exSceneTarget2 : GScene :=
  .mk "test:u" "u" (.mk [.lit "U"]) [.mk [.lit "ub"]] [] [] advCtxNone

def exOptPlain2 : GOpt := .mk (.mk [.lit "Two"]) exSceneTarget2 none false []

/-- An option whose document carries the condition `z=1`.  In the
source such an Option can never finish construction (building its
Conditional throws); the value models the state the claim describes. -/
def exOptGated : GOpt :=
  .mk (.mk [.lit "Gated"]) exSceneTarget (some "z=1") false []

def exSceneMulti : GScene :=
  .mk "test:m" "m" (.mk [.lit "M"]) [.mk [.lit "b"]] []
    [exOptPlain, exOptGated] advCtxNone

/-- A constructible multi-option scene: both options condition-free. -/
def exScenePlainMulti : GScene :=
  .mk "test:p" "p" (.mk [.lit "P"]) [.mk [.lit "pb"]] []
    [exOptPlain, exOptPlain2] advCtxNone

def exStoreZ0 : VarStore := storeOf [("test:z", 0)]

/-- C5: the spec says every Option transition pushes the departed scene
onto the History and `back` pops and re-enters it.  The code never
pushes: taking the single option of `exSceneSingle` transitions to its
target with the history left exactly as it was (for every prior
history), so reaching `back` after a run that started with an empty
history crashes popping `undefined`; the pop half does behave as
specified when the history is nonempty. -/
theorem c5_history_never_pushed :
    (∀ h : List GScene,
      stepCur (engineStep ⟨exSceneSingle, ⟨MAX_RETURN_HISTORY, h⟩,
        emptyStore, [""], []⟩) = some exSceneTarget ∧
      stepHist (engineStep ⟨exSceneSingle, ⟨MAX_RETURN_HISTORY, h⟩,
        emptyStore, [""], []⟩) = some h) ∧
    engineStep ⟨exSceneBack, ⟨MAX_RETURN_HISTORY, []⟩, emptyStore, [], []⟩
      = .errS "TypeError: popped scene is undefined" ∧
    (∀ (s : GScene) (r : List GScene),
      stepCur (engineStep ⟨exSceneBack, ⟨MAX_RETURN_HISTORY, s :: r⟩,
        emptyStore, [], []⟩) = some s ∧
      stepHist (engineStep ⟨exSceneBack, ⟨MAX_RETURN_HISTORY, s :: r⟩,
        emptyStore, [], []⟩) = some r) := by
  refine ⟨fun h => ⟨rfl, rfl⟩, rfl, fun s r => ⟨rfl, rfl⟩⟩

/-- C6: the claim describes a scene partitioned into available and
unavailable Options, the menu numbering only the available 1..N, and
input rejected until a choice in 1..N arrives.  The code cannot reach
that scenario: building any Option that carries a condition throws
`ReferenceError` constructing its Conditional, and on the hypothetical
state with a gated option the turn crashes evaluating the gate (the
method reads the out-of-scope `tokens`).  On the scenes that can exist
— all options condition-free, so every option is available and N is the
total count — the numbering (`1: One`, `2: Two` in list order) and the
reject-until-1..N acceptance do behave as claimed: `3` is rejected
citing the bound 2, then `2` selects the second option. -/
theorem c6_gated_option_code_bug :
    buildOptCondition (some "z=1") "test"
      = .error "ReferenceError: conditionExpressionSubstring is not defined" ∧
    engineStep ⟨exSceneMulti, ⟨MAX_RETURN_HISTORY, []⟩, exStoreZ0, ["1"], []⟩
      = .errS "ReferenceError: tokens is not defined" ∧
    stepCur (engineStep ⟨exScenePlainMulti, ⟨MAX_RETURN_HISTORY, []⟩,
      emptyStore, ["3", "2"], []⟩) = some exSceneTarget2 ∧
    stepOutputs (engineStep ⟨exScenePlainMulti, ⟨MAX_RETURN_HISTORY, []⟩,
      emptyStore, ["3", "2"], []⟩) = some
        ["", "", "", "", "", "", "", "", "", "", "", "P", "pb", "",
         "You could...", "1: One", "2: Two", "", "What do you do?",
         "Select one of the options by entering a number from 1 to 2.",
         "What do you do?"] := by
  refine ⟨rfl, rfl, rfl, rfl⟩

/-- C8: the format documentation and the spec describe the inline
conditional as pipe-separated, `?{condition?textA|textB}`, rendering
textA or textB by the condition.  The code diverges twice.  First, the
marker regex separates on a COLON: under the documented pipe syntax the
whole `yes|no` tail parses as textA with no textB, while the colon
syntax parses the two branches.  Second, whichever way the marker
parses, the constructor then builds the nested Conditional, which
always throws, so compiling any conditional fragment fails with
`ReferenceError` and no conditional text ever renders at all. -/
theorem c8_pipe_separator_code_bug :
    condMarkerParse ("?{x==1?yes|no}".toList)
      = some ("x==1", "yes|no", none) ∧
    condMarkerParse ("?{x==1?yes:no}".toList)
      = some ("x==1", "yes", some "no") ∧
    textRun "?{x==1?yes|no}" "test" (storeOf [("test:x", 1)])
      = .error "ReferenceError: conditionExpressionSubstring is not defined" ∧
    textRun "?{x==1?yes:no}" "test" (storeOf [("test:x", 1)])
      = .error "ReferenceError: conditionExpressionSubstring is not defined" := by
  refine ⟨by decide, by decide, by decide, by decide⟩

/-- C4 counterexample: a Text that interpolates a never-written variable
does not raise the undefined-variable error: the captured closure reads
the store without any check and `join` renders `undefined` as the empty
string, so `${q}` over an empty store renders `""`. -/
theorem c4_counterexample :
    textRun "${q}" "test" emptyStore = .ok "" := by decide

/-- C4 amended: an Action, and a Conditional under the postfix
implementation, that read a variable never written raise the
undefined-variable error (the cited action `c=undefinedVar+1` fails
whenever `test:undefinedVar` is absent, even with a bare `undefinedVar`
key in the store); the live prefix Conditional never reaches a variable
read at all — every construction throws `ReferenceError` — and Text
variable interpolation does not raise: it renders the undefined
variable as the empty string. -/
theorem c4_amended (σ : VarStore) (h : σ "test:undefinedVar" = none) :
    (compileAndRunAction "c=undefinedVar+1" "test" σ).map (fun τ => τ "test:c")
      = .error "Variable test:undefinedVar used before assignment." ∧
    condEvalP1 "undefinedVar=1" "test" σ
      = .error "Variable test:undefinedVar used before assignment." ∧
    condConstructV "undefinedVar=1" "test"
      = .error "ReferenceError: conditionExpressionSubstring is not defined" ∧
    textRun "${undefinedVar}" "test" σ = .ok (jsValJoinStr (σ "test:undefinedVar")) ∧
    jsValJoinStr none = "" := by
  have ha : compileAction "c=undefinedVar+1" "test"
      = .ok ⟨"test:c", .assign, [.varRef "test:undefinedVar", .num 1, .opC '+']⟩ := by
    decide
  have hcp : condCompileP1 "undefinedVar=1" "test"
      = .ok [.varRef "test:undefinedVar", .num 1, .cop "="] := by decide
  have ht : textCompileStr "${undefinedVar}" "test"
      = .ok (.mk [.varRef "test:undefinedVar"]) := by rfl
  refine ⟨?_, ?_, rfl, ?_, rfl⟩
  · simp [compileAndRunAction, ha, runAction, evalRPN, h, Except.bind, bind,
      Except.map]
  · simp [condEvalP1, hcp, evalCondRPN, h, Except.bind, bind, Except.map]
  · simp [textRun, ht, textEval, tokEval, Except.bind, bind, Except.map,
      String.join]

/-- C4 amended witness: the concrete store of the cited example, holding
only the namespace-less key `undefinedVar`. -/
theorem c4_amended_witness :
    (storeOf [("undefinedVar", 7)]) "test:undefinedVar" = none ∧
    (compileAndRunAction "c=undefinedVar+1" "test"
        (storeOf [("undefinedVar", 7)])).map (fun τ => τ "test:c")
      = .error "Variable test:undefinedVar used before assignment." := by
  refine ⟨by decide, (c4_amended (storeOf [("undefinedVar", 7)]) (by decide)).1⟩

/-- C1: the spec requires short-circuit semantics (`L && R` with L false,
or `L || R` with L true, must not evaluate R nor raise undefined-variable
errors for variables only R references).  No implementation satisfies
this.  The postfix evaluator looks every variable up while walking the
whole queue: with `test:z = 1` deciding each condition on the left, it
still raises for the right-hand `test:q`.  The live prefix rewrite
(whose evaluator does skip the short-circuited comparisons) raises even
earlier: constructing it throws `ReferenceError` for every condition
string, so it can never exhibit the required behaviour either. -/
theorem c1_short_circuit_code_bug :
    condEvalP1 "z=1 || q==2" "test" (storeOf [("test:z", 1)])
      = .error "Variable test:q used before assignment." ∧
    condEvalP1 "z=2 && q==2" "test" (storeOf [("test:z", 1)])
      = .error "Variable test:q used before assignment." ∧
    condConstructV "z=1 || q==2" "test"
      = .error "ReferenceError: conditionExpressionSubstring is not defined" ∧
    condConstructV "z=2 && q==2" "test"
      = .error "ReferenceError: conditionExpressionSubstring is not defined" := by
  refine ⟨by decide, by decide, rfl, rfl⟩

/-- C3: the claim (matching the spec and the expectations of the
source's own duplicated test suite) says range sugar is rewritten into
`>=`/`<=` conjunctions so the compiled Conditional decides inclusive
range membership, with the two cited examples true and false.  The
Conditional that the document model instantiates (src/src/variables.js)
throws `ReferenceError` at construction for every condition — its own
Tests 1-9 fail — so no range condition is ever rewritten or evaluated
there; `evaluate` would throw as well.  In the older postfix duplicate,
the two-sided rewriting and the cited examples do behave as claimed
(shown below, including the range law for every store value), but the
one-sided forms are NOT rewritten: `x=4..` tokenizes to `x = 4` (the
`..` is dropped), so with `test:x = 9` it is false although 9 lies in
the claimed range `[4, ∞)`. -/
theorem c3_ranges_code_bug :
    condConstructV "(x=4..7 && y=12..15) || z=1" "test"
      = .error "ReferenceError: conditionExpressionSubstring is not defined" ∧
    condEvaluateV = .error "ReferenceError: tokens is not defined" ∧
    condEvalP1 "(x=4..7 && y=12..15) || z=1" "test"
        (storeOf [("test:x", 5), ("test:y", 13), ("test:z", 0)]) = .ok true ∧
    condEvalP1 "(x=4..7 && y=12..15) || z=1" "test"
        (storeOf [("test:x", 3), ("test:y", 12), ("test:z", 0)]) = .ok false ∧
    (∀ v : ℚ, condEvalP1 "x=4..7" "test" (storeOf [("test:x", v)])
      = .ok (decide (4 ≤ v ∧ v ≤ 7))) ∧
    condCompileP1 "x=4.." "test"
      = .ok [.varRef "test:x", .num 4, .cop "="] ∧
    condEvalP1 "x=4.." "test" (storeOf [("test:x", 9)]) = .ok false := by
  refine ⟨rfl, rfl, by decide, by decide, ?_, by decide, by decide⟩
  intro v
  have hc : condCompileP1 "x=4..7" "test"
      = .ok [.varRef "test:x", .num 4, .cop ">=", .varRef "test:x", .num 7,
             .cop "<=", .cop "&&"] := by decide
  by_cases h1 : (4 : ℚ) ≤ v <;> by_cases h2 : v ≤ 7 <;>
    simp [condEvalP1, hc, evalCondRPN, applyCondOp, jsAnd, jsGe, jsLe,
      storeOf, List.find?, toNum, truthy, List.getLast?,
      Except.bind, bind, h1, h2]

/-- C10: the claim says the two Conditional implementations compute the
same boolean for every condition string both compile.  The source
duplicates one test suite across both files, asserting identical
results for identical inputs — the documented intent.  The postfix
implementation does compute the asserted booleans at the shared test
inputs; the prefix implementation compiles NOTHING: its constructor
throws `ReferenceError` on every condition string whatsoever, so the
claim's "both successfully compile" guard is unsatisfiable and the
agreement its own tests assert never happens. -/
theorem c10_implementations_code_bug :
    condEvalP1 "((x=4..7 && y=12..15) || z=1)" "test"
        (storeOf [("test:x", 5), ("test:y", 13), ("test:z", 0)]) = .ok true ∧
    condEvalP1 "((x=4..7 && y=12..15) || z=1)" "test"
        (storeOf [("test:x", 3), ("test:y", 12), ("test:z", 0)]) = .ok false ∧
    condConstructV "((x=4..7 && y=12..15) || z=1)" "test"
      = .error "ReferenceError: conditionExpressionSubstring is not defined" ∧
    (∀ s ns : String, condConstructV s ns
      = .error "ReferenceError: conditionExpressionSubstring is not defined") := by
  refine ⟨by decide, by decide, rfl, fun s ns => rfl⟩

/-- C2 counterexample: `8/4/2` evaluates to `4` under the compiled
evaluator, while standard infix evaluation with `* / %` binding tighter
than `+ -` and left associativity yields `1`: the compiled evaluator
pushes `*`, `/`, `%` without popping, so they group right-to-left. -/
theorem c2_counterexample :
    evalActionExpr "8/4/2" "test" emptyStore = .ok (.num 4) ∧
    specInfixEval "8/4/2" "test" emptyStore = some 1 ∧
    (JSVal.num 4) ≠ (JSVal.num 1) := by
  refine ⟨by decide, by decide, by decide⟩

/-- C2 amended: the compiled evaluator does not match standard infix
precedence on all expressions (see the counterexample); it does compute
the cited instance correctly: `(7-2)*x+7` with `x = 4` evaluates to `27`,
agreeing with standard infix evaluation of the same token stream. -/
theorem c2_amended :
    evalActionExpr "(7-2)*x+7" "test" (storeOf [("test:x", 4)]) = .ok (.num 27) ∧
    specInfixEval "(7-2)*x+7" "test" (storeOf [("test:x", 4)]) = some 27 := by
  refine ⟨by decide, by decide⟩

/-- C7 counterexample: evaluating the compound action `b+=3` with
`test:b` never assigned does not raise the undefined-variable error; it
succeeds and writes NaN (the unchecked read of the target yields
`undefined`, and `undefined + 3` is NaN). -/
theorem c7_counterexample :
    (compileAndRunAction "b+=3" "test" emptyStore).map (fun σ => σ "test:b")
      = .ok (some .nan) := by decide

/-- C7 amended: a compound assignment reads the target and writes the
combined result when the target is defined (shown for `+= -= *= /=`);
when the target was never assigned the evaluation does not raise: the
unchecked read yields `undefined` and NaN is written.  Only variable
reads inside the right-hand expression raise the undefined-variable
error. -/
theorem c7_amended (v : ℚ) :
    (compileAndRunAction "b+=3" "test" (storeOf [("test:b", v)])).map
      (fun σ => σ "test:b") = .ok (some (.num (v + 3))) ∧
    (compileAndRunAction "b-=3" "test" (storeOf [("test:b", v)])).map
      (fun σ => σ "test:b") = .ok (some (.num (v - 3))) ∧
    (compileAndRunAction "b*=3" "test" (storeOf [("test:b", v)])).map
      (fun σ => σ "test:b") = .ok (some (.num (v * 3))) ∧
    (compileAndRunAction "b/=4" "test" (storeOf [("test:b", v)])).map
      (fun σ => σ "test:b") = .ok (some (.num (v / 4))) ∧
    (compileAndRunAction "b+=3" "test" emptyStore).map
      (fun σ => σ "test:b") = .ok (some .nan) ∧
    (compileAndRunAction "c=q+1" "test" emptyStore).map (fun σ => σ "test:c")
      = .error "Variable test:q used before assignment." := by
  have h1 : compileAction "b+=3" "test" = .ok ⟨"test:b", .addA, [.num 3]⟩ := by decide
  have h2 : compileAction "b-=3" "test" = .ok ⟨"test:b", .subA, [.num 3]⟩ := by decide
  have h3 : compileAction "b*=3" "test" = .ok ⟨"test:b", .mulA, [.num 3]⟩ := by decide
  have h4 : compileAction "b/=4" "test" = .ok ⟨"test:b", .divA, [.num 4]⟩ := by decide
  refine ⟨?_, ?_, ?_, ?_, by decide, by decide⟩ <;>
    simp [compileAndRunAction, h1, h2, h3, h4, runAction, evalRPN, updateStore,
      storeOf, List.find?, jsAdd, jsSub, jsMul, jsDiv, toNum, Except.map,
      Except.bind, bind, Option.getD, Option.map, List.getLast?]

end Inkspire
